import Mathlib

/-!
Verification development for the conduktor/bore-kafka Kafka-aware reverse
tunnel.  The Rust sources under `src/` are shallowly embedded below:

* byte-level helpers model `bytes`/`tokio_util::codec::LengthDelimitedCodec`
  exactly as configured in `src/kafka.rs` (4-byte big-endian length field,
  `num_skip(0)`, `length_adjustment(4)`: a decoded frame keeps its header);
* `DashMap`/`HashMap`/`IndexMap` values are modelled as association lists
  whose insert replaces the binding of an existing key in place;
* panics (`unwrap` on `None`/`Err`, out-of-range `peek_bytes`) are modelled
  as `Option.none` / a dedicated `panicked` outcome;
* the `kafka_protocol` crate is an external dependency: its
  `ResponseHeader`/`MetadataResponse` wire codecs are abstracted as a
  `BodyDecoder` parameter, while the record types are mirrored field by
  field as Lean structures;
* code of the repository that is referenced but absent from `src/`
  (`shared.rs`, `auth.rs`, `server.rs`) is modelled from the spec; every
  such definition is marked `Modelled from the spec:` in its doc comment.
-/

set_option autoImplicit false

/-! ## Byte-level helpers -/

/-- Big-endian interpretation of a byte list as an unsigned natural. -/
def beNat (bs : List Nat) : Nat :=
  bs.foldl (fun acc b => acc * 256 + b % 256) 0

/-- Big-endian 4-byte encoding of `n % 2^32`, as written by `put_u32`. -/
def be32 (n : Nat) : List Nat :=
  [n / 2 ^ 24 % 256, n / 2 ^ 16 % 256, n / 2 ^ 8 % 256, n % 256]

/-- Two's-complement reading of big-endian bytes as an `i32`. -/
def toI32 (bs : List Nat) : Int :=
  let n := beNat bs
  if n < 2 ^ 31 then (n : Int) else (n : Int) - 2 ^ 32

/-- Two's-complement reading of big-endian bytes as an `i16`. -/
def toI16 (bs : List Nat) : Int :=
  let n := beNat bs
  if n < 2 ^ 15 then (n : Int) else (n : Int) - 2 ^ 16

/-- Rust `as u16` truncating cast from a (possibly negative) `i32` value. -/
def toU16 (p : Int) : Nat :=
  (p % 65536).toNat

/-- The slice `bs[a..b)`, as produced by `peek_bytes(a..b)` when in range. -/
def sliceBytes (bs : List Nat) (a b : Nat) : List Nat :=
  (bs.drop a).take (b - a)

/-- One step of the `LengthDelimitedCodec` configured in `src/kafka.rs`
(`num_skip(0)`, `length_adjustment(4)`): read the 4-byte big-endian length
`L` and, when the buffer holds the whole frame, return the first `4 + L`
bytes (header included) together with the unconsumed remainder. -/
def lengthDecode (src : List Nat) : Option (List Nat × List Nat) :=
  if 4 ≤ src.length then
    let L := beNat (src.take 4)
    if 4 + L ≤ src.length then some (src.take (4 + L), src.drop (4 + L))
    else none
  else none

/-! ## Association-list maps

`DashMap`, `HashMap` and `IndexMap` all keep at most one binding per key;
`insert` replaces the binding of an existing key in place and `remove`
deletes it, returning the removed value. -/

/-- Lookup of the first binding of `k`. -/
def lookupA {α β : Type} [DecidableEq α] (m : List (α × β)) (k : α) : Option β :=
  match m with
  | [] => none
  | (k', v) :: rest => if k' = k then some v else lookupA rest k

/-- Insert that replaces an existing binding in place (map semantics). -/
def insertA {α β : Type} [DecidableEq α] (m : List (α × β)) (k : α) (v : β) :
    List (α × β) :=
  match m with
  | [] => [(k, v)]
  | (k', v') :: rest =>
    if k' = k then (k, v) :: rest else (k', v') :: insertA rest k v

/-- Remove the binding of `k`, returning the removed value and the rest. -/
def removeA {α β : Type} [DecidableEq α] (m : List (α × β)) (k : α) :
    Option β × List (α × β) :=
  match m with
  | [] => (none, [])
  | (k', v) :: rest =>
    if k' = k then (some v, rest)
    else
      let r := removeA rest k
      (r.1, (k', v) :: r.2)

theorem lookupA_insertA_self {α β : Type} [DecidableEq α]
    (m : List (α × β)) (k : α) (v : β) : lookupA (insertA m k v) k = some v := by
  induction m with
  | nil => simp [insertA, lookupA]
  | cons hd tl ih =>
    obtain ⟨k', v'⟩ := hd
    by_cases h : k' = k <;> simp [insertA, lookupA, h, ih]

theorem lookupA_insertA_ne {α β : Type} [DecidableEq α]
    (m : List (α × β)) (k k' : α) (v : β) (h : k ≠ k') :
    lookupA (insertA m k v) k' = lookupA m k' := by
  induction m with
  | nil => simp [insertA, lookupA, h]
  | cons hd tl ih =>
    obtain ⟨a, b⟩ := hd
    by_cases ha : a = k
    · subst ha
      simp [insertA, lookupA, h]
    · simp [insertA, ha, lookupA, ih]

theorem mem_keys_insertA {α β : Type} [DecidableEq α]
    (m : List (α × β)) (k a : α) (v : β) :
    a ∈ (insertA m k v).map Prod.fst → a ∈ m.map Prod.fst ∨ a = k := by
  induction m with
  | nil =>
    intro hmem
    simp only [insertA, List.map_cons, List.map_nil, List.mem_singleton] at hmem
    exact Or.inr hmem
  | cons hd tl ih =>
    obtain ⟨c, d⟩ := hd
    intro hmem
    by_cases hc : c = k
    · have he : insertA ((c, d) :: tl) k v = (k, v) :: tl := by
        simp [insertA, hc]
      rw [he, List.map_cons, List.mem_cons] at hmem
      rcases hmem with h1 | h1
      · exact Or.inr h1
      · exact Or.inl (by rw [List.map_cons]; exact List.mem_cons_of_mem _ h1)
    · have he : insertA ((c, d) :: tl) k v = (c, d) :: insertA tl k v := by
        simp [insertA, hc]
      rw [he, List.map_cons, List.mem_cons] at hmem
      rcases hmem with h1 | h1
      · exact Or.inl (by rw [List.map_cons]; exact List.mem_cons.mpr (Or.inl h1))
      · rcases ih h1 with h2 | h2
        · exact Or.inl (by rw [List.map_cons]; exact List.mem_cons_of_mem _ h2)
        · exact Or.inr h2

theorem keys_insertA_nodup {α β : Type} [DecidableEq α]
    (m : List (α × β)) (k : α) (v : β) (h : (m.map Prod.fst).Nodup) :
    ((insertA m k v).map Prod.fst).Nodup := by
  induction m with
  | nil => simp [insertA]
  | cons hd tl ih =>
    obtain ⟨a, b⟩ := hd
    simp only [List.map_cons, List.nodup_cons] at h
    by_cases ha : a = k
    · subst ha
      simpa [insertA] using h
    · have htl := ih h.2
      simp only [insertA, ha, if_false, List.map_cons, List.nodup_cons]
      refine ⟨?_, htl⟩
      intro hmem
      rcases mem_keys_insertA tl k a v hmem with h1 | h1
      · exact h.1 h1
      · exact ha h1

/-! ## Kafka model types (`src/kafka.rs`)

The record types mirror `kafka_protocol::messages`; fields the repository
never inspects (`topics`, tagged fields) are carried opaquely through the
type parameter `τ`. -/

/-- Api keys as used by the proxy: it only ever names `MetadataKey`
(wire code 3); every other key of the `kafka_protocol` enum is collapsed
into `OtherKey` with its wire code. -/
inductive ApiKey : Type
  | MetadataKey : ApiKey
  | OtherKey : Int → ApiKey
  deriving DecidableEq

/-- Wire code of `ApiKey::MetadataKey as i16`. -/
def metadataKeyCode : Int := 3

/-- Entry of the inflight table (`struct RequestKeyAndVersion`). -/
structure RequestKeyAndVersion where
  api_key : ApiKey
  api_version : Int
  deriving DecidableEq

/-- Error kinds of the proxy (`enum ErrorKind` in `src/kafka.rs`; the
`Io` payload is reduced to a message string). -/
inductive ErrorKind : Type
  | Decode : ErrorKind
  | Encode : ErrorKind
  | Io : String → ErrorKind
  deriving DecidableEq

/-- Kafka response header (`kafka_protocol::messages::ResponseHeader`). -/
structure ResponseHeader where
  correlation_id : Int
  deriving DecidableEq

/-- Broker entry of a metadata response
(`kafka_protocol::messages::metadata_response::MetadataResponseBroker`). -/
structure MetadataResponseBroker where
  host : String
  port : Int
  rack : Option String
  deriving DecidableEq

/-- Metadata response (`kafka_protocol::messages::MetadataResponse`).
`brokers` is the ordered `IndexMap<BrokerId, MetadataResponseBroker>`;
`topics` and other fields never inspected by the proxy are carried through
the type parameter `τ`. -/
structure MetadataResponse (τ : Type) where
  throttle_time_ms : Int
  brokers : List (Int × MetadataResponseBroker)
  cluster_id : Option String
  controller_id : Int
  topics : τ
  cluster_authorized_operations : Int
  deriving DecidableEq

/-- Result of the selective decoder (`enum KafkaResponse` in
`src/kafka.rs`). -/
inductive KafkaResponse (τ : Type) : Type
  | Metadata : Int → ResponseHeader → MetadataResponse τ → KafkaResponse τ
  | UndecodedResponse : List Nat → KafkaResponse τ
  deriving DecidableEq

/-- The per-flow inflight table (`Arc<DashMap<i32, RequestKeyAndVersion>>`). -/
abbrev Inflight : Type := List (Int × RequestKeyAndVersion)

/-- Wire codecs of the external `kafka_protocol` crate, abstracted: the
repository calls `MetadataResponse::header_version`,
`ResponseHeader::decode/encode` and `MetadataResponse::decode/encode` and
never looks inside them. -/
structure BodyDecoder (τ : Type) where
  headerVersion : Int → Int
  decodeHeader : Int → List Nat → Option (ResponseHeader × List Nat)
  decodeBody : Int → List Nat → Option (MetadataResponse τ × List Nat)
  encodeHeader : Int → ResponseHeader → Option (List Nat)
  encodeBody : Int → MetadataResponse τ → Option (List Nat)

/-- Outcome of one `Decoder::decode` call: `panicked` models the
out-of-range `peek_bytes` panic, `err` is `Err(e)`, `needMore` is
`Ok(None)` and `item` is `Ok(Some(_))`. -/
inductive DecodeResult (τ : Type) : Type
  | panicked : DecodeResult τ
  | err : ErrorKind → DecodeResult τ
  | needMore : DecodeResult τ
  | item : KafkaResponse τ → DecodeResult τ
  deriving DecidableEq

/-! ## The selective codec (`impl codec::Decoder/Encoder for KafkaServerCodec`) -/

/-- Shallow embedding of `KafkaServerCodec::decode`
(`src/kafka.rs:112-136`).  One length-delimited frame is split off the
buffer; bytes `[4..8)` are peeked as the big-endian `i32` correlation id;
the matching inflight entry is removed; if it carried
`ApiKey::MetadataKey`, the length header is skipped and header and body
are decoded at the registered version, otherwise the whole frame is
returned opaque.  Returns the outcome, the updated table and the
unconsumed buffer. -/
def KafkaServerCodec.decode {τ : Type} (D : BodyDecoder τ)
    (inflight : Inflight) (src : List Nat) :
    DecodeResult τ × Inflight × List Nat :=
  match lengthDecode src with
  | none => (DecodeResult.needMore, inflight, src)
  | some (frame, rest) =>
    if frame.length < 8 then (DecodeResult.panicked, inflight, rest)
    else
      let cid := toI32 (sliceBytes frame 4 8)
      let r := removeA inflight cid
      match r.1 with
      | some ⟨ApiKey.MetadataKey, api_version⟩ =>
        let body := frame.drop 4
        match D.decodeHeader (D.headerVersion api_version) body with
        | none => (DecodeResult.err ErrorKind.Decode, r.2, rest)
        | some (header, afterHeader) =>
          match D.decodeBody api_version afterHeader with
          | none => (DecodeResult.err ErrorKind.Decode, r.2, rest)
          | some (response, _) =>
            (DecodeResult.item (KafkaResponse.Metadata api_version header response),
              r.2, rest)
      | _ => (DecodeResult.item (KafkaResponse.UndecodedResponse frame), r.2, rest)

/-- Shallow embedding of `KafkaServerCodec::encode`
(`src/kafka.rs:142-155`): a decoded metadata response is re-encoded as
header bytes then body bytes with the 4-byte big-endian length prepended;
an undecoded frame is written verbatim. -/
def KafkaServerCodec.encode {τ : Type} (D : BodyDecoder τ)
    (item : KafkaResponse τ) : Except ErrorKind (List Nat) :=
  match item with
  | KafkaResponse.Metadata version header response =>
    match D.encodeHeader (D.headerVersion version) header with
    | none => Except.error ErrorKind.Encode
    | some hb =>
      match D.encodeBody version response with
      | none => Except.error ErrorKind.Encode
      | some rb => Except.ok (be32 (hb ++ rb).length ++ (hb ++ rb))
  | KafkaResponse.UndecodedResponse bytes => Except.ok bytes

/-- Shallow embedding of the request-side inspection in
`KafkaProxy::remote_to_local` (`src/kafka.rs:260-277`): peek bytes
`[4..6)` as the api key; when it equals `Metadata`, peek the api version
at `[6..8)` and the correlation id at `[8..12)` and insert the pair into
the inflight table.  `none` models the `peek_bytes` panic on a frame too
short for the peeked range; the frame itself is always forwarded
verbatim by `write_all_buf`. -/
def remoteToLocalRegister (inflight : Inflight) (frame : List Nat) :
    Option Inflight :=
  if frame.length < 6 then none
  else
    let api_key := toI16 (sliceBytes frame 4 6)
    if api_key = metadataKeyCode then
      if frame.length < 12 then none
      else
        let api_version := toI16 (sliceBytes frame 6 8)
        let correlation_id := toI32 (sliceBytes frame 8 12)
        some (insertA inflight correlation_id
          ⟨ApiKey.MetadataKey, api_version⟩)
    else some inflight

/-! ## KafkaProxy (`src/kafka.rs:158-369`) -/

/-- A kafka broker host/port (`struct KafkaBroker` in `src/kafka.rs`). -/
structure KafkaBroker where
  host : String
  port : Nat
  deriving DecidableEq

/-- Conversion `From<&MetadataResponseBroker> for KafkaBroker`
(`src/kafka.rs:174-178`): the `i32` port is truncated by `as u16`. -/
def KafkaBroker.fromBroker (b : MetadataResponseBroker) : KafkaBroker :=
  ⟨b.host, toU16 b.port⟩

/-- The `connections: RwLock<HashMap<KafkaBroker, u16>>` map. -/
abbrev ConnMap : Type := List (KafkaBroker × Nat)

/-- Environment supplying the outcome of each `Client::new` dial: the
`i`-th dial of the session to broker `b` either yields the tunnel's
remote port or fails. -/
def Dial : Type := Nat → KafkaBroker → Except String Nat

/-- Mutable state of a `KafkaProxy` run: the connections map, the number
of dials performed so far (indexing into the `Dial` environment) and the
tunnel clients spawned via `tokio::spawn(client.listen_boxed())`,
recorded as (broker, remote_port) pairs. -/
structure ProxySt where
  conns : ConnMap
  dials : Nat
  clients : List (KafkaBroker × Nat)
  deriving DecidableEq

/-- Shallow embedding of `KafkaProxy::add_connection`
(`src/kafka.rs:357-368`).  No presence check is performed: the tunnel
client is always constructed, its `remote_port` inserted (replacing any
previous binding) and its listen loop spawned. -/
def KafkaProxy.add_connection (dial : Dial) (st : ProxySt) (url : KafkaBroker) :
    Except String (ProxySt × Nat) :=
  match dial st.dials url with
  | Except.error e => Except.error e
  | Except.ok remote_port =>
    Except.ok
      ({ conns := insertA st.conns url remote_port,
         dials := st.dials + 1,
         clients := st.clients ++ [(url, remote_port)] }, remote_port)

/-- Shallow embedding of `KafkaProxy::open_new_broker_connection_if_needed`
(`src/kafka.rs:332-354`): collect the brokers absent from the connections
map, then `join_all` their `add_connection` calls — the returned
`Vec<Result<u16>>` is DROPPED, so a failed dial leaves no trace beyond the
missing map entry. -/
def KafkaProxy.open_new_broker_connection_if_needed (dial : Dial) (st : ProxySt)
    (brokers : List (Int × MetadataResponseBroker)) : ProxySt :=
  let unknown := (brokers.map (fun p => KafkaBroker.fromBroker p.2)).filter
    (fun url => (lookupA st.conns url).isNone)
  unknown.foldl
    (fun acc url =>
      match KafkaProxy.add_connection dial acc url with
      | Except.error _ => { acc with dials := acc.dials + 1 }
      | Except.ok (st', _) => st')
    st

/-- The rewrite loop of `KafkaProxy::adapt_metadata`
(`src/kafka.rs:321-327`): each broker's original `(host, port as u16)` is
looked up in the connections map; `host` is replaced by the configured
rendezvous host `to` and `port` by the recorded remote port.
`connections.get(&url).unwrap()` panics when the entry is missing, which
is modelled by `none`. -/
def rewriteBrokers (conns : ConnMap) (toHost : String) :
    List (Int × MetadataResponseBroker) →
    Option (List (Int × MetadataResponseBroker))
  | [] => some []
  | (id, b) :: rest =>
    match lookupA conns (KafkaBroker.fromBroker b) with
    | none => none
    | some p =>
      match rewriteBrokers conns toHost rest with
      | none => none
      | some rest' => some ((id, { b with host := toHost, port := (p : Int) }) :: rest')

/-- Shallow embedding of `KafkaProxy::adapt_metadata`
(`src/kafka.rs:317-329`): Phase 1 dials every unknown broker (errors
dropped), Phase 2 rewrites each broker entry in place.  The second
component is `none` when the rewrite loop panics on a missing entry. -/
def KafkaProxy.adapt_metadata {τ : Type} (dial : Dial) (toHost : String)
    (st : ProxySt) (metadata : MetadataResponse τ) :
    ProxySt × Option (MetadataResponse τ) :=
  match rewriteBrokers
      (KafkaProxy.open_new_broker_connection_if_needed dial st metadata.brokers).conns
      toHost metadata.brokers with
  | none => (KafkaProxy.open_new_broker_connection_if_needed dial st metadata.brokers,
      none)
  | some brokers' =>
    (KafkaProxy.open_new_broker_connection_if_needed dial st metadata.brokers,
      some { metadata with brokers := brokers' })

/-! ## Bootstrap-string parsing (`src/kafka.rs:180-190`, `src/utils.rs`) -/

/-- Rust `str::split(':')`: all separator-delimited segments, in order;
the empty string yields one empty segment. -/
def splitColonAux : List Char → List Char → List (List Char)
  | [], acc => [acc.reverse]
  | c :: rest, acc =>
    if c = ':' then acc.reverse :: splitColonAux rest []
    else splitColonAux rest (c :: acc)

/-- Segments of a string around ':' separators, as Rust `split(':')`. -/
def splitColon (s : String) : List String :=
  (splitColonAux s.data []).map List.asString

/-- Rust `u16::from_str`: an optional leading '+', then one or more ASCII
digits whose value fits in 16 bits; anything else is an error. -/
def parseU16 (s : String) : Option Nat :=
  let cs := match s.data with
    | '+' :: rest => rest
    | other => other
  if cs.isEmpty then none
  else if cs.all Char.isDigit then
    let v := cs.foldl (fun acc c => acc * 10 + (c.toNat - 48)) 0
    if v ≤ 65535 then some v else none
  else none

/-- Shallow embedding of `impl FromStr for KafkaBroker`
(`src/kafka.rs:183-189`): missing segments and unparsable ports are
reported as descriptive `Err` strings. -/
def KafkaBroker.fromStr (s : String) : Except String KafkaBroker :=
  match splitColon s with
  | [] => Except.error "no host provided"
  | host :: rest =>
    match rest with
    | [] => Except.error "no port provided"
    | port :: _ =>
      match parseU16 port with
      | none => Except.error "invalid port"
      | some p => Except.ok ⟨host, p⟩

/-! ## ProxyState pool (`src/proxy_state.rs`, `src/connection_pool.rs`) -/

/-- A local url (`struct Url`, identical in both pool revisions). -/
structure Url where
  host : String
  port : Nat
  deriving DecidableEq

/-- State of the broker pool: the `connections: HashMap<Url, u16>` map,
the dial counter and the spawned tunnel clients. -/
structure PoolSt where
  conns : List (Url × Nat)
  dials : Nat
  clients : List (Url × Nat)
  deriving DecidableEq

/-- Dial environment for the pool revisions. -/
def DialU : Type := Nat → Url → Except String Nat

/-- Shallow embedding of `ProxyState::insert_broker`
(`src/proxy_state.rs:50-52`): `self.connections.insert(broker_local_url, 0)`
— the entry is created with remote-port value 0, no handshake involved. -/
def ProxyState.insert_broker (st : PoolSt) (url : Url) : PoolSt :=
  { st with conns := insertA st.conns url 0 }

/-- Shallow embedding of `ProxyState::contains_broker`
(`src/proxy_state.rs:55-57`). -/
def ProxyState.contains_broker (st : PoolSt) (url : Url) : Bool :=
  (lookupA st.conns url).isSome

/-- Shallow embedding of `ProxyState::get_remote_port`
(`src/proxy_state.rs:60-62`). -/
def ProxyState.get_remote_port (st : PoolSt) (url : Url) : Option Nat :=
  lookupA st.conns url

/-- Shallow embedding of the guarded `add_connection` of the pool
revisions (`src/proxy_state.rs:92-120` and the method
`ProxyState::add_connection` in `src/connection_pool.rs:97-124`): if the
url is already present the call returns immediately; otherwise
`Client::new` is awaited (`.unwrap()` panics on `Err`, modelled by
`none`), the client's listen loop is spawned and `(url → remote_port)` is
inserted. -/
def ProxyState.add_connection (dial : DialU) (st : PoolSt) (url : Url) :
    Option PoolSt :=
  if (lookupA st.conns url).isSome then some st
  else
    match dial st.dials url with
    | Except.error _ => none
    | Except.ok remote_port =>
      some { conns := insertA st.conns url remote_port,
             dials := st.dials + 1,
             clients := st.clients ++ [(url, remote_port)] }

/-- A sequence of `add_connection` calls, run in order; `none` as soon as
one of them panics. -/
def ProxyState.runCalls (dial : DialU) (st : PoolSt) : List Url → Option PoolSt
  | [] => some st
  | url :: rest =>
    match ProxyState.add_connection dial st url with
    | none => none
    | some st' => ProxyState.runCalls dial st' rest

/-- Shallow embedding of `parse_bootstrap_server` (`src/utils.rs:4-9`,
identical to the copy in `src/main.rs:49-54`): both `split.next()` calls
and the port parse use `unwrap`, so a missing segment or a bad port
PANICS, modelled by `none`. -/
def parse_bootstrap_server (s : String) : Option Url :=
  match splitColon s with
  | [] => none
  | host :: rest =>
    match rest with
    | [] => none
    | port :: _ =>
      match parseU16 port with
      | none => none
      | some p => some ⟨host, p⟩

/-! ## Tunnel client (`src/client.rs`) and control channel

`shared.rs` (the `Delimited` framed stream, `ServerMessage`,
`ClientMessage`, `NETWORK_TIMEOUT`), `auth.rs` (`Authenticator`) and
`server.rs` are code of this repository that is not under `src/`; they
are modelled from the spec below. -/

/-- Control-channel messages from the rendezvous server (§3/§6 of the
spec; uuids are modelled as naturals). -/
inductive ServerMessage : Type
  | Hello : Nat → ServerMessage
  | Challenge : Nat → ServerMessage
  | Heartbeat : ServerMessage
  | Connection : Nat → ServerMessage
  | Error : String → ServerMessage
  deriving DecidableEq

/-- Modelled from the spec: the authenticator's reply tag
`hex(HMAC-SHA256(secret, uuid))` (§4.C), in the symbolic model where the
MAC is an injective constructor of its key and challenge (`auth.rs` is
not under `src/`). -/
inductive AuthTag : Type
  | mac : String → Nat → AuthTag
  deriving DecidableEq

/-- Shallow embedding of the reply match in `Client::new`
(`src/client.rs:65-73`): the first message after `Hello(port)` decides
the handshake — `Hello(remote_port)` succeeds, `Error`, `Challenge`, any
other message or EOF all `bail!` with the quoted message. -/
def helloResponse (reply : Option ServerMessage) : Except String Nat :=
  match reply with
  | some (ServerMessage.Hello remote_port) => Except.ok remote_port
  | some (ServerMessage.Error message) =>
    Except.error ("server error: " ++ message)
  | some (ServerMessage.Challenge _) =>
    Except.error "server requires authentication, but no client secret was provided"
  | some _ => Except.error "unexpected initial non-hello message"
  | none => Except.error "unexpected EOF"

/-- Modelled from the spec: the rendezvous server's side of the control
handshake (`server.rs` and `auth.rs` are not under `src/`).  A server
with a secret sends `Challenge(nonce)` on connect and accepts the `Hello`
only if the client's `Authenticate` tag equals its own
`HMAC(secret, nonce)` (§4.C); a server without a secret sends no
challenge and echoes `Hello(assigned)` (§4.D).  The function returns the
first message the client reads after sending `Hello`, given the tag the
client sent during the optional auth exchange. -/
def serverFirstResponse (serverSecret : Option String) (clientTag : Option AuthTag)
    (nonce assigned : Nat) : Option ServerMessage :=
  match serverSecret with
  | none => some (ServerMessage.Hello assigned)
  | some s' =>
    match clientTag with
    | none => some (ServerMessage.Challenge nonce)
    | some tag =>
      if tag = AuthTag.mac s' nonce then some (ServerMessage.Hello assigned)
      else some (ServerMessage.Error "invalid secret")

/-- Shallow embedding of `Client::new` (`src/client.rs:49-87`) against the
spec-modelled rendezvous.  A client with a secret first runs
`client_handshake` (modelled from the spec: it `recv_timeout`s a
`Challenge` — failing if the server sent none — and answers with its MAC
tag, `auth.rs` not being under `src/`); then it sends `Hello` and
dispatches on the first reply via `helloResponse`.  The result is the
`remote_port`, or the handshake error. -/
def Client.new (clientSecret serverSecret : Option String)
    (nonce assigned : Nat) : Except String Nat :=
  match clientSecret with
  | some s =>
    match serverSecret with
    | none => Except.error "expected authentication challenge, but the server did not send one"
    | some _ =>
      helloResponse
        (serverFirstResponse serverSecret (some (AuthTag.mac s nonce)) nonce assigned)
  | none => helloResponse (serverFirstResponse serverSecret none nonce assigned)

/-- Events observable on the control channel, in order.  `silence` stands
for a full `NETWORK_TIMEOUT` elapsing with no bytes arriving;
`eof` is a clean close (`recv` returns `Ok(None)`), `ioErr` a failed read. -/
inductive ConnEvent : Type
  | msg : ServerMessage → ConnEvent
  | silence : ConnEvent
  | eof : ConnEvent
  | ioErr : ConnEvent
  deriving DecidableEq

/-- Result of the `Client::listen` loop: it either returns (`Ok` on EOF,
`Err` on a control-channel error) or stays blocked forever; the spawned
`Connection` flow ids are recorded. -/
inductive ListenResult : Type
  | returnedOk : List Nat → ListenResult
  | returnedErr : List Nat → ListenResult
  | blocked : List Nat → ListenResult
  deriving DecidableEq

/-- Shallow embedding of `Client::listen` (`src/client.rs:97-122`).  The
loop reads with `conn.recv()` — the UNtimed read (`recv_timeout` is used
only in `Client::new`); modelled from the spec for the absent
`shared.rs`: `recv` sleeps through silence and only ever yields a
message, EOF or an I/O error.  `Hello`/`Challenge`/`Heartbeat`/`Error`
messages are logged or ignored and the loop continues; `Connection(id)`
spawns a data flow; EOF returns `Ok(())`; a read error propagates via
`?`.  A trace that ends without EOF or error leaves the loop blocked on
`recv`. -/
def Client.listen (spawned : List Nat) : List ConnEvent → ListenResult
  | [] => ListenResult.blocked spawned
  | ConnEvent.silence :: rest => Client.listen spawned rest
  | ConnEvent.eof :: _ => ListenResult.returnedOk spawned
  | ConnEvent.ioErr :: _ => ListenResult.returnedErr spawned
  | ConnEvent.msg (ServerMessage.Connection id) :: rest =>
    Client.listen (spawned ++ [id]) rest
  | ConnEvent.msg _ :: rest => Client.listen spawned rest

/-- Whether the listen loop returned (terminated) at all. -/
def ListenResult.isReturned : ListenResult → Bool
  | ListenResult.returnedOk _ => true
  | ListenResult.returnedErr _ => true
  | ListenResult.blocked _ => false

/-! ## Helper lemmas -/

theorem removeA_fst_eq_lookupA {α β : Type} [DecidableEq α]
    (m : List (α × β)) (k : α) : (removeA m k).1 = lookupA m k := by
  induction m with
  | nil => simp [removeA, lookupA]
  | cons hd tl ih =>
    obtain ⟨k', v⟩ := hd
    by_cases h : k' = k <;> simp [removeA, lookupA, h, ih]

theorem removeA_of_lookupA_none {α β : Type} [DecidableEq α]
    (m : List (α × β)) (k : α) (h : lookupA m k = none) :
    removeA m k = (none, m) := by
  induction m with
  | nil => simp [removeA]
  | cons hd tl ih =>
    obtain ⟨k', v⟩ := hd
    by_cases hk : k' = k
    · simp [lookupA, hk] at h
    · simp only [lookupA, hk, if_false] at h
      simp [removeA, hk, ih h]

theorem lengthDecode_append (src frame rest : List Nat)
    (h : lengthDecode src = some (frame, rest)) : frame ++ rest = src := by
  unfold lengthDecode at h
  by_cases h4 : 4 ≤ src.length
  · simp only [h4, if_true] at h
    by_cases hL : 4 + beNat (src.take 4) ≤ src.length
    · simp only [hL, if_true, Option.some.injEq, Prod.mk.injEq] at h
      rw [← h.1, ← h.2]
      exact List.take_append_drop _ _
    · simp [hL] at h
  · simp [h4] at h

/-! ## Concrete instances used by the witnesses -/

/-- An empty metadata response over `τ := Nat`. -/
def mdEmpty : MetadataResponse Nat :=
  { throttle_time_ms := 0, brokers := [], cluster_id := none,
    controller_id := 0, topics := 0, cluster_authorized_operations := 0 }

/-- A concrete body decoder over `τ := Nat` used to instantiate the
abstract `kafka_protocol` codecs in witnesses. -/
def trivDecoder : BodyDecoder Nat :=
  { headerVersion := fun v => v,
    decodeHeader := fun _ bs => some (⟨0⟩, bs),
    decodeBody := fun _ bs => some (mdEmpty, bs),
    encodeHeader := fun _ _ => some [],
    encodeBody := fun _ _ => some [] }

/-! ## C1 — passthrough fidelity -/

/-- C1: for every frame split off the buffer whose correlation id (bytes
`[4..8)`, big-endian `i32`) has no entry in the inflight table,
`KafkaServerCodec::decode` returns the frame as `UndecodedResponse` with
the inflight table untouched, `KafkaServerCodec::encode` writes those
bytes back verbatim — original 4-byte big-endian length prefix included —
and the frame together with the unconsumed remainder is exactly the bytes
received from the upstream socket. -/
theorem c1_passthrough_fidelity {τ : Type} (D : BodyDecoder τ)
    (inflight : Inflight) (src frame rest : List Nat)
    (hlen : lengthDecode src = some (frame, rest))
    (hsz : 8 ≤ frame.length)
    (hmiss : lookupA inflight (toI32 (sliceBytes frame 4 8)) = none) :
    KafkaServerCodec.decode D inflight src
        = (DecodeResult.item (KafkaResponse.UndecodedResponse frame), inflight, rest)
      ∧ KafkaServerCodec.encode D (KafkaResponse.UndecodedResponse frame)
        = Except.ok frame
      ∧ frame ++ rest = src := by
  refine ⟨?_, rfl, lengthDecode_append src frame rest hlen⟩
  unfold KafkaServerCodec.decode
  rw [hlen]
  simp only [removeA_of_lookupA_none inflight _ hmiss]
  have : ¬ frame.length < 8 := by omega
  simp [this]

/-- Witness for C1 at a concrete 8-byte frame with correlation id 7 and
an inflight table holding only id 9. -/
theorem c1_passthrough_fidelity_witness :
    KafkaServerCodec.decode trivDecoder
        [((9 : Int), ⟨ApiKey.MetadataKey, 1⟩)] [0, 0, 0, 4, 0, 0, 0, 7]
        = (DecodeResult.item
            (KafkaResponse.UndecodedResponse [0, 0, 0, 4, 0, 0, 0, 7]),
           [((9 : Int), ⟨ApiKey.MetadataKey, 1⟩)], [])
      ∧ KafkaServerCodec.encode trivDecoder
          (KafkaResponse.UndecodedResponse [0, 0, 0, 4, 0, 0, 0, 7])
        = Except.ok [0, 0, 0, 4, 0, 0, 0, 7]
      ∧ [0, 0, 0, 4, 0, 0, 0, 7] ++ ([] : List Nat) = [0, 0, 0, 4, 0, 0, 0, 7] :=
  c1_passthrough_fidelity trivDecoder [((9 : Int), ⟨ApiKey.MetadataKey, 1⟩)]
    [0, 0, 0, 4, 0, 0, 0, 7] [0, 0, 0, 4, 0, 0, 0, 7] []
    (by decide) (by decide) (by decide)

/-! ## C2 — correlation matching -/

/-- C2: the selective decoder fully decodes exactly the response frames
whose big-endian `i32` correlation id (bytes `[4..8)`) has an inflight
entry: (1) with a registered `Metadata(version)` entry and a well-formed
body, the frame is decoded as a `MetadataResponse` at that version and
the entry is removed; (2) with a registered entry the result is never an
opaque forward — it is the decoded response or a decode error, and the
entry is removed either way; (3) with no matching entry the frame is
forwarded as opaque bytes and the table is untouched; (4)
`remote_to_local` only ever inserts `Metadata` keys into the table. -/
theorem c2_correlation_matching :
    (∀ (τ : Type) (D : BodyDecoder τ) (infl : Inflight)
        (src frame rest : List Nat) (v : Int) (hdr : ResponseHeader)
        (b2 : List Nat) (resp : MetadataResponse τ) (leftover : List Nat),
      lengthDecode src = some (frame, rest) →
      8 ≤ frame.length →
      lookupA infl (toI32 (sliceBytes frame 4 8))
        = some ⟨ApiKey.MetadataKey, v⟩ →
      D.decodeHeader (D.headerVersion v) (frame.drop 4) = some (hdr, b2) →
      D.decodeBody v b2 = some (resp, leftover) →
      KafkaServerCodec.decode D infl src
        = (DecodeResult.item (KafkaResponse.Metadata v hdr resp),
           (removeA infl (toI32 (sliceBytes frame 4 8))).2, rest))
    ∧ (∀ (τ : Type) (D : BodyDecoder τ) (infl : Inflight)
        (src frame rest : List Nat) (v : Int),
      lengthDecode src = some (frame, rest) →
      8 ≤ frame.length →
      lookupA infl (toI32 (sliceBytes frame 4 8))
        = some ⟨ApiKey.MetadataKey, v⟩ →
      (KafkaServerCodec.decode D infl src).2
          = ((removeA infl (toI32 (sliceBytes frame 4 8))).2, rest)
        ∧ ((∃ hdr resp, (KafkaServerCodec.decode D infl src).1
              = DecodeResult.item (KafkaResponse.Metadata v hdr resp))
          ∨ (KafkaServerCodec.decode D infl src).1
              = DecodeResult.err ErrorKind.Decode))
    ∧ (∀ (τ : Type) (D : BodyDecoder τ) (infl : Inflight)
        (src frame rest : List Nat),
      lengthDecode src = some (frame, rest) →
      8 ≤ frame.length →
      lookupA infl (toI32 (sliceBytes frame 4 8)) = none →
      KafkaServerCodec.decode D infl src
        = (DecodeResult.item (KafkaResponse.UndecodedResponse frame),
           infl, rest))
    ∧ (∀ (infl : Inflight) (frame : List Nat) (infl' : Inflight)
        (cid : Int) (e : RequestKeyAndVersion),
      remoteToLocalRegister infl frame = some infl' →
      lookupA infl' cid = some e →
      lookupA infl cid = some e ∨ e.api_key = ApiKey.MetadataKey) := by
  refine ⟨?_, ?_, ?_, ?_⟩
  · intro τ D infl src frame rest v hdr b2 resp leftover hlen hsz hlk hh hb
    have h1 : (removeA infl (toI32 (sliceBytes frame 4 8))).1
        = some ⟨ApiKey.MetadataKey, v⟩ := by
      rw [removeA_fst_eq_lookupA]; exact hlk
    have hn8 : ¬ frame.length < 8 := by omega
    unfold KafkaServerCodec.decode
    rw [hlen]
    simp only [hn8, if_false, h1, hh, hb]
  · intro τ D infl src frame rest v hlen hsz hlk
    have h1 : (removeA infl (toI32 (sliceBytes frame 4 8))).1
        = some ⟨ApiKey.MetadataKey, v⟩ := by
      rw [removeA_fst_eq_lookupA]; exact hlk
    have hn8 : ¬ frame.length < 8 := by omega
    cases hh : D.decodeHeader (D.headerVersion v) (frame.drop 4) with
    | none =>
      unfold KafkaServerCodec.decode
      rw [hlen]
      simp only [hn8, if_false, h1, hh]
      exact ⟨trivial, Or.inr trivial⟩
    | some p =>
      obtain ⟨hdr, b2⟩ := p
      cases hb : D.decodeBody v b2 with
      | none =>
        unfold KafkaServerCodec.decode
        rw [hlen]
        simp only [hn8, if_false, h1, hh, hb]
        exact ⟨trivial, Or.inr trivial⟩
      | some q =>
        obtain ⟨resp, leftover⟩ := q
        unfold KafkaServerCodec.decode
        rw [hlen]
        simp only [hn8, if_false, h1, hh, hb]
        exact ⟨trivial, Or.inl ⟨hdr, resp, rfl⟩⟩
  · intro τ D infl src frame rest hlen hsz hlk
    have hn8 : ¬ frame.length < 8 := by omega
    unfold KafkaServerCodec.decode
    rw [hlen]
    simp only [removeA_of_lookupA_none infl _ hlk, hn8, if_false]
  · intro infl frame infl' cid e hreg hlk
    unfold remoteToLocalRegister at hreg
    by_cases h6 : frame.length < 6
    · simp [h6] at hreg
    · simp only [h6, if_false] at hreg
      by_cases hkey : toI16 (sliceBytes frame 4 6) = metadataKeyCode
      · simp only [hkey, if_true, ite_true] at hreg
        by_cases h12 : frame.length < 12
        · simp [h12] at hreg
        · simp only [h12, if_false, Option.some.injEq] at hreg
          subst hreg
          by_cases hc : toI32 (sliceBytes frame 8 12) = cid
          · subst hc
            rw [lookupA_insertA_self] at hlk
            exact Or.inr (by rw [← Option.some.injEq] at hlk; cases hlk; rfl)
          · rw [lookupA_insertA_ne _ _ _ _ hc] at hlk
            exact Or.inl hlk
      · simp only [hkey, if_false, ite_false, Option.some.injEq] at hreg
        subst hreg
        exact Or.inl hlk

/-- Witness for C2: a decoded metadata frame (registered id 7), its
removal, an opaque forward for an unregistered id, and a registration
inserting only a `Metadata` key. -/
theorem c2_correlation_matching_witness :
    (KafkaServerCodec.decode trivDecoder [((7 : Int), ⟨ApiKey.MetadataKey, 1⟩)]
        [0, 0, 0, 4, 0, 0, 0, 7]
      = (DecodeResult.item (KafkaResponse.Metadata 1 ⟨0⟩ mdEmpty),
         (removeA [((7 : Int), ⟨ApiKey.MetadataKey, 1⟩)]
           (toI32 (sliceBytes [0, 0, 0, 4, 0, 0, 0, 7] 4 8))).2, []))
    ∧ ((KafkaServerCodec.decode trivDecoder [((7 : Int), ⟨ApiKey.MetadataKey, 1⟩)]
          [0, 0, 0, 4, 0, 0, 0, 7]).2
        = ((removeA [((7 : Int), ⟨ApiKey.MetadataKey, 1⟩)]
            (toI32 (sliceBytes [0, 0, 0, 4, 0, 0, 0, 7] 4 8))).2, [])
      ∧ ((∃ hdr resp,
            (KafkaServerCodec.decode trivDecoder
              [((7 : Int), ⟨ApiKey.MetadataKey, 1⟩)]
              [0, 0, 0, 4, 0, 0, 0, 7]).1
            = DecodeResult.item (KafkaResponse.Metadata 1 hdr resp))
        ∨ (KafkaServerCodec.decode trivDecoder
              [((7 : Int), ⟨ApiKey.MetadataKey, 1⟩)]
              [0, 0, 0, 4, 0, 0, 0, 7]).1
            = DecodeResult.err ErrorKind.Decode))
    ∧ (KafkaServerCodec.decode trivDecoder []
        [0, 0, 0, 4, 0, 0, 0, 7]
      = (DecodeResult.item
          (KafkaResponse.UndecodedResponse [0, 0, 0, 4, 0, 0, 0, 7]), [], []))
    ∧ (lookupA [] (7 : Int) = some (⟨ApiKey.MetadataKey, 1⟩ : RequestKeyAndVersion)
      ∨ (⟨ApiKey.MetadataKey, 1⟩ : RequestKeyAndVersion).api_key
          = ApiKey.MetadataKey) :=
  ⟨c2_correlation_matching.1 Nat trivDecoder
      [((7 : Int), ⟨ApiKey.MetadataKey, 1⟩)] [0, 0, 0, 4, 0, 0, 0, 7]
      [0, 0, 0, 4, 0, 0, 0, 7] [] 1 ⟨0⟩ [0, 0, 0, 7] mdEmpty [0, 0, 0, 7]
      (by decide) (by decide) (by decide) (by decide) (by decide),
   c2_correlation_matching.2.1 Nat trivDecoder
      [((7 : Int), ⟨ApiKey.MetadataKey, 1⟩)] [0, 0, 0, 4, 0, 0, 0, 7]
      [0, 0, 0, 4, 0, 0, 0, 7] [] 1
      (by decide) (by decide) (by decide),
   c2_correlation_matching.2.2.1 Nat trivDecoder [] [0, 0, 0, 4, 0, 0, 0, 7]
      [0, 0, 0, 4, 0, 0, 0, 7] []
      (by decide) (by decide) (by decide),
   c2_correlation_matching.2.2.2 []
      [0, 0, 0, 8, 0, 3, 0, 1, 0, 0, 0, 7]
      [((7 : Int), ⟨ApiKey.MetadataKey, 1⟩)] 7 ⟨ApiKey.MetadataKey, 1⟩
      (by decide) (by decide)⟩

/-! ## C3 — metadata rewrite frame condition -/

theorem rewriteBrokers_spec (conns : ConnMap) (toHost : String) :
    ∀ (l l' : List (Int × MetadataResponseBroker)),
      rewriteBrokers conns toHost l = some l' →
      l'.map Prod.fst = l.map Prod.fst ∧
      List.Forall₂ (fun (p q : Int × MetadataResponseBroker) =>
        q.2.rack = p.2.rack ∧ q.2.host = toHost ∧
        ∃ rp, lookupA conns (KafkaBroker.fromBroker p.2) = some rp ∧
          q.2.port = (rp : Int)) l l' := by
  intro l
  induction l with
  | nil =>
    intro l' h
    simp only [rewriteBrokers, Option.some.injEq] at h
    subst h
    exact ⟨rfl, List.Forall₂.nil⟩
  | cons hd rest ih =>
    obtain ⟨id, b⟩ := hd
    intro l' h
    unfold rewriteBrokers at h
    cases hlk : lookupA conns (KafkaBroker.fromBroker b) with
    | none => rw [hlk] at h; cases h
    | some rp =>
      rw [hlk] at h
      cases hrest : rewriteBrokers conns toHost rest with
      | none => rw [hrest] at h; cases h
      | some rest' =>
        rw [hrest] at h
        simp only [Option.some.injEq] at h
        subst h
        obtain ⟨hmap, hall⟩ := ih rest' hrest
        refine ⟨by simp [hmap], List.Forall₂.cons ⟨rfl, rfl, rp, hlk, rfl⟩ hall⟩

/-- C3: whenever `adapt_metadata` returns a rewritten response (no
panic), only the `host` and `port` of each entry of `brokers` change:
`host` becomes the configured rendezvous host and `port` the pool's
recorded remote port for the broker's original `(host, port as u16)`
address; `throttle_time_ms`, `cluster_id`, `controller_id`, `topics`,
`cluster_authorized_operations` and each broker's `rack` are unchanged,
and the broker ids keep their order. -/
theorem c3_metadata_rewrite_frame {τ : Type} (dial : Dial) (toHost : String)
    (st : ProxySt) (m : MetadataResponse τ) (st' : ProxySt)
    (m' : MetadataResponse τ)
    (h : KafkaProxy.adapt_metadata dial toHost st m = (st', some m')) :
    m'.throttle_time_ms = m.throttle_time_ms
      ∧ m'.cluster_id = m.cluster_id
      ∧ m'.controller_id = m.controller_id
      ∧ m'.topics = m.topics
      ∧ m'.cluster_authorized_operations = m.cluster_authorized_operations
      ∧ m'.brokers.map Prod.fst = m.brokers.map Prod.fst
      ∧ List.Forall₂ (fun (p q : Int × MetadataResponseBroker) =>
          q.2.rack = p.2.rack ∧ q.2.host = toHost ∧
          ∃ rp, lookupA st'.conns (KafkaBroker.fromBroker p.2) = some rp ∧
            q.2.port = (rp : Int)) m.brokers m'.brokers := by
  unfold KafkaProxy.adapt_metadata at h
  cases hrw : rewriteBrokers
      (KafkaProxy.open_new_broker_connection_if_needed dial st m.brokers).conns
      toHost m.brokers with
  | none => rw [hrw] at h; cases h
  | some brokers' =>
    rw [hrw] at h
    simp only [Prod.mk.injEq, Option.some.injEq] at h
    obtain ⟨hst, hm⟩ := h
    subst hst
    subst hm
    obtain ⟨hmap, hall⟩ := rewriteBrokers_spec _ toHost m.brokers brokers' hrw
    exact ⟨rfl, rfl, rfl, rfl, rfl, hmap, hall⟩

/-- Concrete inputs shared by the C3 witness: a pool already holding the
broker `(b1, 9092)` at remote port 100, a metadata response advertising
that broker, and its expected rewrite. -/
def dialOk200 : Dial := fun _ _ => Except.ok 200

/-- Sample metadata response advertising broker `(b1, 9092)`. -/
def mdSample : MetadataResponse Nat :=
  { throttle_time_ms := 5,
    brokers := [((1 : Int), { host := "b1", port := 9092, rack := some "r1" })],
    cluster_id := some "c", controller_id := 1, topics := 42,
    cluster_authorized_operations := 7 }

/-- The rewrite of `mdSample` against `stSample`. -/
def mdSampleOut : MetadataResponse Nat :=
  { throttle_time_ms := 5,
    brokers := [((1 : Int), { host := "bore.pub", port := 100, rack := some "r1" })],
    cluster_id := some "c", controller_id := 1, topics := 42,
    cluster_authorized_operations := 7 }

/-- Proxy state whose pool maps `(b1, 9092)` to remote port 100. -/
def stSample : ProxySt :=
  { conns := [(⟨"b1", 9092⟩, 100)], dials := 0, clients := [] }

/-- Witness for C3 at the sample pool and response. -/
theorem c3_metadata_rewrite_frame_witness :
    mdSampleOut.throttle_time_ms = mdSample.throttle_time_ms
      ∧ mdSampleOut.cluster_id = mdSample.cluster_id
      ∧ mdSampleOut.controller_id = mdSample.controller_id
      ∧ mdSampleOut.topics = mdSample.topics
      ∧ mdSampleOut.cluster_authorized_operations
          = mdSample.cluster_authorized_operations
      ∧ mdSampleOut.brokers.map Prod.fst = mdSample.brokers.map Prod.fst
      ∧ List.Forall₂ (fun (p q : Int × MetadataResponseBroker) =>
          q.2.rack = p.2.rack ∧ q.2.host = "bore.pub" ∧
          ∃ rp, lookupA stSample.conns (KafkaBroker.fromBroker p.2) = some rp ∧
            q.2.port = (rp : Int)) mdSample.brokers mdSampleOut.brokers :=
  c3_metadata_rewrite_frame dialOk200 "bore.pub" stSample mdSample
    stSample mdSampleOut (by decide)

/-! ## C4 — phase-1 error propagation -/

/-- A dial environment in which every `Client::new` fails. -/
def dialFail : Dial := fun _ _ => Except.error "could not connect to bore.pub:7835"

/-- C4: evaluation of the code at the failing input.  With an empty pool
and a metadata response advertising broker `(b1, 9092)`, the dial for
that broker fails; `add_connection` does return the error, but
`open_new_broker_connection_if_needed` drops it (the `join_all` results
are discarded), leaving the pool empty, and `adapt_metadata` then PANICS
(`connections.get(&url).unwrap()` on `None`, modelled by the `none`
result) instead of failing the flow with a propagated error. -/
theorem c4_dial_failure_swallowed_then_panics :
    KafkaProxy.add_connection dialFail
        { conns := [], dials := 0, clients := [] } ⟨"b1", 9092⟩
      = Except.error "could not connect to bore.pub:7835"
    ∧ KafkaProxy.adapt_metadata dialFail "bore.pub"
        { conns := [], dials := 0, clients := [] } mdSample
      = ({ conns := [], dials := 1, clients := [] }, none) := by
  constructor
  · rfl
  · rfl

/-! ## C5 — dedup invariant of add_connection -/

/-- A dial environment that always hands out remote port 7. -/
def dialOk7 : Dial := fun _ _ => Except.ok 7

/-- Counterexample for C5 as stated: `KafkaProxy::add_connection`
(`src/kafka.rs:357-368`) performs NO presence check.  Called for a broker
already present with stored remote port 5, it constructs a new tunnel
client (the spawned-clients list grows) and overwrites the stored remote
port with the fresh dial's port 7. -/
theorem c5_counterexample :
    KafkaProxy.add_connection dialOk7
        { conns := [(⟨"b1", 9092⟩, 5)], dials := 0, clients := [] } ⟨"b1", 9092⟩
      = Except.ok ({ conns := [(⟨"b1", 9092⟩, 7)], dials := 1,
                     clients := [(⟨"b1", 9092⟩, 7)] }, 7)
    ∧ lookupA [((⟨"b1", 9092⟩ : KafkaBroker), 5)] ⟨"b1", 9092⟩ = some 5
    ∧ lookupA [((⟨"b1", 9092⟩ : KafkaBroker), 7)] ⟨"b1", 9092⟩ ≠ some 5 := by
  refine ⟨rfl, rfl, ?_⟩
  decide

/-- C5 (amended): the guarded pool `add_connection`
(`src/connection_pool.rs` / `src/proxy_state.rs`) is idempotent — a call
for a broker already present returns with the state completely unchanged
(no tunnel client constructed, stored port untouched), and any sequence
of calls keeps at most one `connections` entry per broker (the key list
stays duplicate-free).  `KafkaProxy::add_connection` in `src/kafka.rs`
has no such guard; its dedup is done by the caller. -/
theorem c5_guarded_add_connection_idempotent :
    (∀ (dial : DialU) (st : PoolSt) (url : Url),
      (lookupA st.conns url).isSome →
      ProxyState.add_connection dial st url = some st)
    ∧ (∀ (dial : DialU) (urls : List Url) (st st' : PoolSt),
      ProxyState.runCalls dial st urls = some st' →
      (st.conns.map Prod.fst).Nodup → (st'.conns.map Prod.fst).Nodup) := by
  constructor
  · intro dial st url h
    unfold ProxyState.add_connection
    rw [if_pos h]
  · intro dial urls
    induction urls with
    | nil =>
      intro st st' hrun hnd
      simp only [ProxyState.runCalls, Option.some.injEq] at hrun
      subst hrun
      exact hnd
    | cons url rest ih =>
      intro st st' hrun hnd
      unfold ProxyState.runCalls at hrun
      cases hadd : ProxyState.add_connection dial st url with
      | none => rw [hadd] at hrun; cases hrun
      | some st1 =>
        rw [hadd] at hrun
        refine ih st1 st' hrun ?_
        unfold ProxyState.add_connection at hadd
        by_cases hp : (lookupA st.conns url).isSome
        · rw [if_pos hp] at hadd
          cases hadd
          exact hnd
        · rw [if_neg hp] at hadd
          cases hd : dial st.dials url with
          | error e => rw [hd] at hadd; cases hadd
          | ok port =>
            rw [hd] at hadd
            simp only [Option.some.injEq] at hadd
            subst hadd
            exact keys_insertA_nodup st.conns url port hnd

/-- Witness for C5's amended statement: a present broker is a no-op, and
two calls for the same broker leave one entry. -/
theorem c5_guarded_add_connection_idempotent_witness :
    ProxyState.add_connection (fun _ _ => Except.ok 7)
        { conns := [(⟨"b1", 9092⟩, 5)], dials := 0, clients := [] } ⟨"b1", 9092⟩
      = some { conns := [(⟨"b1", 9092⟩, 5)], dials := 0, clients := [] }
    ∧ (({ conns := [(⟨"b1", 9092⟩, 5)], dials := 1,
          clients := [(⟨"b1", 9092⟩, 5)] } : PoolSt).conns.map Prod.fst).Nodup :=
  ⟨c5_guarded_add_connection_idempotent.1 (fun _ _ => Except.ok 7)
      { conns := [(⟨"b1", 9092⟩, 5)], dials := 0, clients := [] } ⟨"b1", 9092⟩
      (by decide),
   c5_guarded_add_connection_idempotent.2 (fun _ _ => Except.ok 5)
      [⟨"b1", 9092⟩, ⟨"b1", 9092⟩]
      { conns := [], dials := 0, clients := [] }
      { conns := [(⟨"b1", 9092⟩, 5)], dials := 1,
        clients := [(⟨"b1", 9092⟩, 5)] }
      (by decide) (by decide)⟩

/-! ## C6 — metadata rewrite idempotence -/

/-- Counterexample for C6 as stated: a first `adapt_metadata` rewrites
broker `(b1, 9092)` to `(bore.pub, 100)`; a second application treats
`(bore.pub, 100)` as a NEW unknown broker (the pool is keyed by original
addresses), dials a fresh tunnel and rewrites the port to the newly
recorded 200 — so `adapt_metadata` applied twice differs from
`adapt_metadata` applied once. -/
theorem c6_counterexample :
    KafkaProxy.adapt_metadata dialOk200 "bore.pub" stSample mdSample
      = (stSample, some mdSampleOut)
    ∧ (KafkaProxy.adapt_metadata dialOk200 "bore.pub" stSample mdSampleOut).2
      ≠ some mdSampleOut := by
  refine ⟨by decide, by decide⟩

theorem rewriteBrokers_fixpoint (conns : ConnMap) (toHost : String) :
    ∀ (l : List (Int × MetadataResponseBroker)),
      (∀ p ∈ l, (p.2).host = toHost ∧ 0 ≤ (p.2).port ∧
        lookupA conns (KafkaBroker.fromBroker p.2) = some (p.2).port.toNat) →
      rewriteBrokers conns toHost l = some l := by
  intro l
  induction l with
  | nil => intro _; rfl
  | cons hd rest ih =>
    obtain ⟨id, b⟩ := hd
    intro h
    obtain ⟨hhost, hpos, hlk⟩ := h (id, b) (List.mem_cons_self _ _)
    dsimp only at hhost hpos hlk
    have hrest := ih (fun p hp => h p (List.mem_cons_of_mem _ hp))
    have hb : ({ b with host := toHost, port := ((b.port.toNat : Nat) : Int) }
        : MetadataResponseBroker) = b := by
      obtain ⟨bh, bp, br⟩ := b
      dsimp only at hhost hpos
      simp only [MetadataResponseBroker.mk.injEq]
      exact ⟨hhost.symm, Int.toNat_of_nonneg hpos, trivial⟩
    simp only [rewriteBrokers, hlk, hrest, hb]

theorem open_new_noop (dial : Dial) (st : ProxySt)
    (brokers : List (Int × MetadataResponseBroker))
    (h : ∀ p ∈ brokers,
      (lookupA st.conns (KafkaBroker.fromBroker (Prod.snd p))).isSome) :
    KafkaProxy.open_new_broker_connection_if_needed dial st brokers = st := by
  unfold KafkaProxy.open_new_broker_connection_if_needed
  have hfil : (brokers.map (fun p => KafkaBroker.fromBroker p.2)).filter
      (fun url => (lookupA st.conns url).isNone) = [] := by
    rw [List.filter_eq_nil_iff]
    intro url hurl
    obtain ⟨p, hp, rfl⟩ := List.mem_map.mp hurl
    have := h p hp
    simp only [Option.isNone_iff_eq_none, decide_eq_true_eq]
    intro hnone
    rw [hnone] at this
    cases this
  rw [hfil]
  rfl

/-- C6 (amended): `adapt_metadata` is a no-op on a response whose brokers
already point at the rendezvous host ONLY under the extra condition that
the pool maps each rewritten address `(rendezvous_host, p)` to `p`
itself; in general a second application treats rewritten brokers as
unknown, dials fresh tunnels and changes the advertised ports (see the
counterexample). -/
theorem c6_adapt_metadata_fixpoint {τ : Type} (dial : Dial) (toHost : String)
    (st : ProxySt) (m : MetadataResponse τ)
    (h : ∀ p ∈ m.brokers, (p.2).host = toHost ∧ 0 ≤ (p.2).port ∧
      lookupA st.conns (KafkaBroker.fromBroker p.2) = some (p.2).port.toNat) :
    KafkaProxy.adapt_metadata dial toHost st m = (st, some m) := by
  have hopen : KafkaProxy.open_new_broker_connection_if_needed dial st m.brokers
      = st := by
    refine open_new_noop dial st m.brokers ?_
    intro p hp
    rw [(h p hp).2.2]
    rfl
  unfold KafkaProxy.adapt_metadata
  rw [hopen, rewriteBrokers_fixpoint st.conns toHost m.brokers h]

/-- Witness for C6's amended statement: a pool mapping `(bore.pub, 100)`
to port 100 makes the already-rewritten response a true fixed point. -/
theorem c6_adapt_metadata_fixpoint_witness :
    KafkaProxy.adapt_metadata dialOk200 "bore.pub"
        { conns := [(⟨"bore.pub", 100⟩, 100)], dials := 0, clients := [] }
        mdSampleOut
      = ({ conns := [(⟨"bore.pub", 100⟩, 100)], dials := 0, clients := [] },
         some mdSampleOut) :=
  c6_adapt_metadata_fixpoint dialOk200 "bore.pub"
    { conns := [(⟨"bore.pub", 100⟩, 100)], dials := 0, clients := [] }
    mdSampleOut (by decide)

/-! ## C7 — no port-0 entry -/

/-- Counterexample for C7 as stated: `ProxyState::insert_broker`
(`src/proxy_state.rs:50-52`) executes
`self.connections.insert(broker_local_url, 0)` — it creates a
`connections` entry whose remote-port value is 0 with no `Client::new`
handshake at all. -/
theorem c7_counterexample :
    lookupA (ProxyState.insert_broker
        { conns := [], dials := 0, clients := [] } ⟨"b1", 9092⟩).conns
        ⟨"b1", 9092⟩
      = some 0 := by
  decide

/-- C7 (amended): along any sequence of `add_connection` calls — the only
operation that creates entries from a `Client::new` handshake — the
`connections` map never holds a port-0 entry (granted the rendezvous
never assigns port 0, cf. `Hello(0)` meaning "any free port ≥ min"), and
existing entries are never removed or overwritten; `insert_broker`,
however, violates the invariant by inserting a literal 0 (see the
counterexample). -/
theorem c7_no_port_zero_via_add_connection (dial : DialU)
    (hdial : ∀ (k : Nat) (u : Url) (p : Nat), dial k u = Except.ok p → p ≠ 0)
    (urls : List Url) :
    ∀ (st st' : PoolSt),
      ProxyState.runCalls dial st urls = some st' →
      (∀ u : Url, lookupA st.conns u ≠ some 0) →
      (∀ u : Url, lookupA st'.conns u ≠ some 0)
        ∧ (∀ (u : Url) (p : Nat),
            lookupA st.conns u = some p → lookupA st'.conns u = some p) := by
  induction urls with
  | nil =>
    intro st st' hrun hz
    simp only [ProxyState.runCalls, Option.some.injEq] at hrun
    subst hrun
    exact ⟨hz, fun u p hp => hp⟩
  | cons url rest ih =>
    intro st st' hrun hz
    unfold ProxyState.runCalls at hrun
    cases hadd : ProxyState.add_connection dial st url with
    | none => rw [hadd] at hrun; cases hrun
    | some st1 =>
      rw [hadd] at hrun
      unfold ProxyState.add_connection at hadd
      by_cases hp : (lookupA st.conns url).isSome
      · rw [if_pos hp] at hadd
        cases hadd
        exact ih st st' hrun hz
      · rw [if_neg hp] at hadd
        cases hd : dial st.dials url with
        | error e => rw [hd] at hadd; cases hadd
        | ok port =>
          rw [hd] at hadd
          simp only [Option.some.injEq] at hadd
          subst hadd
          have hpz : port ≠ 0 := hdial st.dials url port hd
          have hz1 : ∀ u : Url,
              lookupA (insertA st.conns url port) u ≠ some 0 := by
            intro u
            by_cases hu : url = u
            · subst hu
              rw [lookupA_insertA_self]
              intro hcon
              exact hpz (Option.some.inj hcon)
            · rw [lookupA_insertA_ne _ _ _ _ hu]
              exact hz u
          obtain ⟨hza, hpres⟩ := ih _ st' hrun hz1
          refine ⟨hza, fun u p hup => hpres u p ?_⟩
          by_cases hu : url = u
          · subst hu
            rw [Option.isSome_iff_exists] at hp
            exact absurd ⟨p, hup⟩ hp
          · rw [lookupA_insertA_ne _ _ _ _ hu]
            exact hup

/-- Witness for C7's amended statement: one successful `add_connection`
from an empty pool with a nonzero-port dial environment. -/
theorem c7_no_port_zero_via_add_connection_witness :
    (∀ u : Url,
      lookupA ({ conns := [(⟨"b1", 9092⟩, 300)], dials := 1,
                 clients := [(⟨"b1", 9092⟩, 300)] } : PoolSt).conns u ≠ some 0)
      ∧ (∀ (u : Url) (p : Nat),
          lookupA ({ conns := [], dials := 0, clients := [] } : PoolSt).conns u
            = some p →
          lookupA ({ conns := [(⟨"b1", 9092⟩, 300)], dials := 1,
                     clients := [(⟨"b1", 9092⟩, 300)] } : PoolSt).conns u
            = some p) :=
  c7_no_port_zero_via_add_connection (fun _ _ => Except.ok 300)
    (fun _ _ p h => by cases Except.ok.inj h; decide)
    [⟨"b1", 9092⟩]
    { conns := [], dials := 0, clients := [] }
    { conns := [(⟨"b1", 9092⟩, 300)], dials := 1,
      clients := [(⟨"b1", 9092⟩, 300)] }
    (by decide)
    (fun u h => Option.noConfusion h)

/-! ## C8 — authentication mismatch fails start -/

/-- C8: `Client::new` fails — and thus returns no remote port — whenever
(1) the rendezvous requires authentication (its pending `Challenge` is
the first reply to `Hello`) but the client holds no secret, (2) both hold
secrets but they disagree (the server answers `Error("invalid secret")`),
or (3) the client holds a secret but the rendezvous sends no challenge. -/
theorem c8_auth_mismatch_fails_start :
    (∀ (s' : String) (nonce assigned : Nat),
      Client.new none (some s') nonce assigned
        = Except.error
            "server requires authentication, but no client secret was provided")
    ∧ (∀ (s s' : String) (nonce assigned : Nat), s ≠ s' →
      Client.new (some s) (some s') nonce assigned
        = Except.error ("server error: " ++ "invalid secret"))
    ∧ (∀ (s : String) (nonce assigned : Nat),
      Client.new (some s) none nonce assigned
        = Except.error
            "expected authentication challenge, but the server did not send one") := by
  refine ⟨fun s' nonce assigned => rfl, ?_, fun s nonce assigned => rfl⟩
  intro s s' nonce assigned hne
  simp [Client.new, serverFirstResponse, helloResponse, AuthTag.mac.injEq, hne]

/-- Witness for C8 with disagreeing secrets "a" and "b". -/
theorem c8_auth_mismatch_fails_start_witness :
    Client.new none (some "my secret") 1 2
      = Except.error
          "server requires authentication, but no client secret was provided"
    ∧ Client.new (some "a") (some "b") 1 2
      = Except.error ("server error: " ++ "invalid secret")
    ∧ Client.new (some "a") none 1 2
      = Except.error
          "expected authentication challenge, but the server did not send one" :=
  ⟨c8_auth_mismatch_fails_start.1 "my secret" 1 2,
   c8_auth_mismatch_fails_start.2.1 "a" "b" 1 2 (by decide),
   c8_auth_mismatch_fails_start.2.2 "a" 1 2⟩

/-! ## C9 — heartbeat liveness bound -/

/-- Counterexample for C9 as stated: a full `NETWORK_TIMEOUT` of silence
on the control channel does NOT make `Client::listen` return — the loop
reads with the untimed `recv` and stays blocked (`recv_timeout` is used
only inside `Client::new`). -/
theorem c9_counterexample :
    Client.listen [] [ConnEvent.silence] = ListenResult.blocked []
    ∧ (Client.listen [] [ConnEvent.silence]).isReturned = false := by
  exact ⟨rfl, rfl⟩

/-- C9 (amended): `Client::listen` is insensitive to the passage of time:
on a control channel that delivers only messages and silence — however
long — the loop never returns; it terminates exactly when the channel
yields EOF (returning `Ok`) or an I/O error (propagated by `?`). -/
theorem c9_listen_termination :
    (∀ (t : List ConnEvent) (s : List Nat),
      ConnEvent.eof ∉ t → ConnEvent.ioErr ∉ t →
      (Client.listen s t).isReturned = false)
    ∧ (∀ (t : List ConnEvent) (s : List Nat),
      ConnEvent.eof ∈ t ∨ ConnEvent.ioErr ∈ t →
      (Client.listen s t).isReturned = true) := by
  constructor
  · intro t
    induction t with
    | nil => intro s _ _; rfl
    | cons e rest ih =>
      intro s heof hioe
      have heof' : ConnEvent.eof ∉ rest := fun h => heof (List.mem_cons_of_mem _ h)
      have hioe' : ConnEvent.ioErr ∉ rest := fun h => hioe (List.mem_cons_of_mem _ h)
      cases e with
      | silence => exact ih s heof' hioe'
      | eof => exact absurd (List.mem_cons_self _ _) heof
      | ioErr => exact absurd (List.mem_cons_self _ _) hioe
      | msg m =>
        cases m with
        | Hello p => exact ih s heof' hioe'
        | Challenge c => exact ih s heof' hioe'
        | Heartbeat => exact ih s heof' hioe'
        | Connection id => exact ih (s ++ [id]) heof' hioe'
        | Error e => exact ih s heof' hioe'
  · intro t
    induction t with
    | nil =>
      intro s h
      rcases h with h | h <;> cases h
    | cons e rest ih =>
      intro s h
      cases e with
      | silence =>
        refine ih s ?_
        rcases h with h | h
        · rcases List.mem_cons.mp h with h1 | h1
          · cases h1
          · exact Or.inl h1
        · rcases List.mem_cons.mp h with h1 | h1
          · cases h1
          · exact Or.inr h1
      | eof => rfl
      | ioErr => rfl
      | msg m =>
        have h' : ConnEvent.eof ∈ rest ∨ ConnEvent.ioErr ∈ rest := by
          rcases h with h | h
          · rcases List.mem_cons.mp h with h1 | h1
            · cases h1
            · exact Or.inl h1
          · rcases List.mem_cons.mp h with h1 | h1
            · cases h1
            · exact Or.inr h1
        cases m with
        | Hello p => exact ih s h'
        | Challenge c => exact ih s h'
        | Heartbeat => exact ih s h'
        | Connection id => exact ih (s ++ [id]) h'
        | Error e => exact ih s h'

/-- Witness for C9's amended statement: silence plus a heartbeat leaves
the loop blocked; an EOF makes it return. -/
theorem c9_listen_termination_witness :
    (Client.listen []
      [ConnEvent.silence, ConnEvent.msg ServerMessage.Heartbeat]).isReturned
      = false
    ∧ (Client.listen [] [ConnEvent.eof]).isReturned = true :=
  ⟨c9_listen_termination.1
      [ConnEvent.silence, ConnEvent.msg ServerMessage.Heartbeat] []
      (by decide) (by decide),
   c9_listen_termination.2 [ConnEvent.eof] [] (Or.inl (by decide))⟩

/-! ## C10 — parse_bootstrap_server is partial, from_str is total -/

theorem splitColonAux_ne_nil : ∀ (l acc : List Char), splitColonAux l acc ≠ [] := by
  intro l
  induction l with
  | nil => intro acc h; cases h
  | cons c rest ih =>
    intro acc
    unfold splitColonAux
    by_cases hc : c = ':'
    · rw [if_pos hc]
      intro h
      cases h
    · rw [if_neg hc]
      exact ih (c :: acc)

theorem splitColon_ne_nil (s : String) : splitColon s ≠ [] := by
  unfold splitColon
  intro h
  exact splitColonAux_ne_nil s.data [] (List.map_eq_nil_iff.mp h)

/-- C10: `parse_bootstrap_server` (`src/utils.rs`) is partial — on any
input without a second ':'-segment, or whose port segment does not parse
as a `u16` (non-numeric or out of range), it PANICS on `unwrap`
(modelled by `none`) — whereas `KafkaBroker::from_str`
(`src/kafka.rs:183-189`, the parser `KafkaProxy::start` uses) returns the
descriptive error "no port provided" or "invalid port" on exactly those
inputs. -/
theorem c10_parse_bootstrap_server_partiality (s : String)
    (h : (splitColon s).length ≤ 1
      ∨ ∃ host port rest, splitColon s = host :: port :: rest
          ∧ parseU16 port = none) :
    parse_bootstrap_server s = none
      ∧ (KafkaBroker.fromStr s = Except.error "no port provided"
        ∨ KafkaBroker.fromStr s = Except.error "invalid port") := by
  cases hsp : splitColon s with
  | nil => exact absurd hsp (splitColon_ne_nil s)
  | cons host rest =>
    cases rest with
    | nil =>
      refine ⟨?_, Or.inl ?_⟩
      · unfold parse_bootstrap_server
        rw [hsp]
      · unfold KafkaBroker.fromStr
        rw [hsp]
    | cons port rest2 =>
      rcases h with h1 | h2
      · rw [hsp] at h1
        simp at h1
      · obtain ⟨h', p', r', heq, hpar⟩ := h2
        rw [hsp] at heq
        injection heq with hh htl
        injection htl with hp hr
        subst hh
        subst hp
        refine ⟨?_, Or.inr ?_⟩
        · unfold parse_bootstrap_server
          rw [hsp]
          simp only [hpar]
        · unfold KafkaBroker.fromStr
          rw [hsp]
          simp only [hpar]

/-- Witness for C10 at the colon-free input "localhost" (first disjunct)
— where the utils parser panics and `from_str` reports
"no port provided". -/
theorem c10_parse_bootstrap_server_partiality_witness :
    parse_bootstrap_server "localhost" = none
      ∧ (KafkaBroker.fromStr "localhost" = Except.error "no port provided"
        ∨ KafkaBroker.fromStr "localhost" = Except.error "invalid port") :=
  c10_parse_bootstrap_server_partiality "localhost" (Or.inl (by decide))
